import Mathlib

/-!
Verification of the conversation state machine and finalization pipeline of a
multi-tenant dental-clinic chatbot backend.

The development shallowly embeds the Python source:
* `src/core/state_manager.py` (conversation store, message log, finalize),
* `src/services/webhook_routing_service.py` (lead delivery),
* `src/core/agent.py` (`get_agent_response`, modelled with the LLM call as an
  oracle: `none` means the generator raised, `some o` means it returned `o`),
* `src/api/chat.py` (`handle_chat_message`, one turn of the patient endpoint).

Database tables are Lean lists, SQLAlchemy `query(...).first()` is `List.find?`,
in-place mutation of the first matching row is `updateFirstBy`, timestamps are
naturals handed out monotonically by the store model.  Network effects (the
outbound webhook POST) are returned as data rather than performed.
-/

/-- Conversation state blob: a Python dict mapping field name to a nullable
string, modelled as an association list in insertion order. -/
abbrev StateMap : Type := List (String × Option String)

/-- Dict lookup: `none` when the key is absent, `some v` when present with
(nullable) value `v`.  Mirrors Python `d.get(k)` up to the outer option. -/
def lookupState : StateMap → String → Option (Option String)
  | [], _ => none
  | (k', v) :: rest, k => if k' = k then some v else lookupState rest k

/-- Dict write `d[k] = v`: replace the binding of `k` if present, else append. -/
def dictInsert : StateMap → String → Option String → StateMap
  | [], k, v => [(k, v)]
  | (k', v') :: rest, k, v =>
    if k' = k then (k, v) :: rest else (k', v') :: dictInsert rest k v

/-- Embeds `current_state.update({k: v for k, v in updated_details.items() if v is not None})`
from `src/api/chat.py` line 71: every non-null binding of the update is written
into the state, null bindings are skipped. -/
def mergeState (st : StateMap) : StateMap → StateMap
  | [] => st
  | (_, none) :: rest => mergeState st rest
  | (k, some v) :: rest => mergeState (dictInsert st k (some v)) rest

/-- Row of the `conversations` table (`src/models/models.py` plus the
`agent_type` column added by migration 0003 and used by `state_manager.py`). -/
structure Conversation where
  conversation_id : String
  client_id : String
  current_stage : String
  conversation_state : StateMap
  is_finalized : Bool
  finalized_at : Option Nat
  agent_type : String
deriving DecidableEq

/-- Row of the `chat_logs` table (with the migration-0003 `agent_type` column).
`log_id` is the autoincrement key; `created_at` is a store-issued timestamp. -/
structure ChatLog where
  log_id : Nat
  conversation_id : String
  sender_type : String
  message : String
  created_at : Nat
  agent_type : String
deriving DecidableEq

/-- Row of the `clients` table: the tenant record.  `lead_webhook_url` is
nullable; Python treats both NULL and the empty string as "no target". -/
structure Client where
  client_id : String
  clinic_name : String
  lead_webhook_url : Option String
deriving DecidableEq

/-- Row shape shared by the `webhook_attempts`, `webhook_successes` and
`webhook_failures` audit tables (`src/models/models.py`). -/
structure WebhookRecord where
  client_id : String
  conversation_id : String
  payload_data : StateMap
  response_status_code : Option Nat
  response_text : Option String
deriving DecidableEq

/-- The persistent store: one list per table, plus counters for the
autoincrement key and the monotonically increasing clock. -/
structure DB where
  conversations : List Conversation
  chat_logs : List ChatLog
  clients : List Client
  webhook_attempts : List WebhookRecord
  webhook_successes : List WebhookRecord
  webhook_failures : List WebhookRecord
  next_log_id : Nat
  next_time : Nat
deriving DecidableEq

/-- Update the first list element satisfying `p` (SQLAlchemy: query `.first()`
then mutate the mapped row in place and commit). -/
def updateFirstBy (p : α → Bool) (f : α → α) : List α → List α
  | [] => []
  | x :: xs => if p x then f x :: xs else x :: updateFirstBy p f xs

/-- Embeds `db.query(Conversation).filter(Conversation.conversation_id == cid).first()`. -/
def findConversation (db : DB) (cid : String) : Option Conversation :=
  db.conversations.find? (fun c => c.conversation_id == cid)

/-- Python truthiness of a nullable string: `None` and `""` are falsy. -/
def pyTruthy : Option String → Bool
  | none => false
  | some s => !(s == "")

/-- Initial state dict of a fresh conversation
(`state_manager.load_or_create_conversation`, lines 56 to 65). -/
def initialState : StateMap :=
  [("name", none), ("phone", none), ("email", none), ("service", none),
   ("appointment_type", none), ("last_visit", none),
   ("preferred_date", none), ("preferred_time", none)]

/-- Embeds `state_manager.load_or_create_conversation`: return the stored row
if it exists, otherwise insert a fresh row with stage GREETING and all state
fields null, and return it. -/
def load_or_create_conversation (db : DB) (cid client : String)
    (agent_kind : String := "patient") : DB × Conversation :=
  match findConversation db cid with
  | some c => (db, c)
  | none =>
    let c : Conversation :=
      { conversation_id := cid, client_id := client, current_stage := "GREETING",
        conversation_state := initialState, is_finalized := false,
        finalized_at := none, agent_type := agent_kind }
    ({ db with conversations := db.conversations ++ [c] }, c)

/-- Embeds `state_manager.get_conversation_by_id`. -/
def get_conversation_by_id (db : DB) (cid : String) : Option Conversation :=
  findConversation db cid

/-- Embeds `state_manager.save_state`: if the conversation exists, overwrite
its stage and state; otherwise do nothing. -/
def save_state (db : DB) (cid stage : String) (st : StateMap) : DB :=
  { db with
    conversations :=
      updateFirstBy (fun c => c.conversation_id == cid)
        (fun c => { c with current_stage := stage, conversation_state := st })
        db.conversations }

/-- Embeds `state_manager.finalize_conversation`.  The success path
(`if conversation and not conversation.is_finalized`) sets `is_finalized` and
`finalized_at` and returns `True`; the fall-through path returns Python `None`
(falsy), modelled here as `false`, and changes nothing. -/
def finalize_conversation (db : DB) (cid : String) (now : Nat) : Bool × DB :=
  match findConversation db cid with
  | some c =>
    if c.is_finalized then (false, db)
    else
      (true,
       { db with
         conversations :=
           updateFirstBy (fun x => x.conversation_id == cid)
             (fun x => { x with is_finalized := true, finalized_at := some now })
             db.conversations })
  | none => (false, db)

/-- Embeds `state_manager.log_message`: append a `chat_logs` row. -/
def log_message (db : DB) (cid sender message : String)
    (agent_kind : String := "patient") : DB :=
  { db with
    chat_logs := db.chat_logs ++
      [{ log_id := db.next_log_id, conversation_id := cid,
         sender_type := sender, message := message,
         created_at := db.next_time, agent_type := agent_kind }],
    next_log_id := db.next_log_id + 1,
    next_time := db.next_time + 1 }

/-- Insert into a list kept sorted by `created_at` descending. -/
def insertByCreatedDesc (l : ChatLog) : List ChatLog → List ChatLog
  | [] => [l]
  | x :: xs =>
    if l.created_at ≥ x.created_at then l :: x :: xs
    else x :: insertByCreatedDesc l xs

/-- Sort chat logs by `created_at` descending
(`order_by(ChatLog.created_at.desc())`). -/
def sortByCreatedDesc : List ChatLog → List ChatLog
  | [] => []
  | x :: xs => insertByCreatedDesc x (sortByCreatedDesc xs)

/-- LangChain message as built by `get_conversation_history`. -/
inductive Msg where
  | human (content : String)
  | ai (content : String)
deriving DecidableEq

/-- The `chat_logs` rows selected by `state_manager.get_conversation_history`:
filter by conversation id, filter by agent type only when that argument is
truthy (`if agent_type:`), order by `created_at` descending, take `limit`,
then reverse into chronological order. -/
def history_window_logs (db : DB) (cid : String) (limit : Nat)
    (agent_kind : Option String) : List ChatLog :=
  let q1 := db.chat_logs.filter (fun l => l.conversation_id == cid)
  let q2 :=
    if pyTruthy agent_kind then
      q1.filter (fun l => l.agent_type == agent_kind.getD "")
    else q1
  ((sortByCreatedDesc q2).take limit).reverse

/-- Embeds `state_manager.get_conversation_history`: the selected window mapped
to `HumanMessage` and `AIMessage` values by `sender_type`. -/
def get_conversation_history (db : DB) (cid : String) (limit : Nat := 10)
    (agent_kind : Option String := none) : List Msg :=
  (history_window_logs db cid limit agent_kind).map
    (fun l => if l.sender_type == "user" then Msg.human l.message else Msg.ai l.message)

/-- Structured output of the patient generator
(`agent.PatientAgentResponse`; `model_dump()` always carries every field,
with `next_stage` defaulting to the empty string). -/
structure AgentOutput where
  response_text : String
  updated_details : StateMap
  user_confirmed : Bool
  next_stage : String
deriving DecidableEq

/-- Fixed apologetic reply returned by `agent.get_agent_response` when the LLM
call raises. -/
def fallbackText : String :=
  "I\x27m sorry, I\x27m having a little trouble right now. Could you please rephrase that?"

/-- Embeds `agent.get_agent_response`.  The LLM chain is an oracle argument:
`some o` is the structured output of a successful call, `none` means the call
raised, in which case the except branch returns the fixed fallback dict with
empty `updated_details` and `next_stage` equal to the input stage. -/
def get_agent_response (gen : Option AgentOutput) (stage : String) : AgentOutput :=
  match gen with
  | some o => o
  | none =>
    { response_text := fallbackText, updated_details := [],
      user_confirmed := false, next_stage := stage }

/-- HTTP response oracle for the webhook POST: `none` is a transport-level
error (`httpx.RequestError`), `some r` carries status code and body. -/
structure HttpResp where
  status_code : Nat
  body : String
deriving DecidableEq

/-- Payload of `webhook_routing_service.route_via_webhook`, field for field. -/
structure WebhookPayload where
  client_id : String
  conversation_id : String
  timestamp : Nat
  name : Option String
  phone : Option String
  email : Option String
  lead_data : StateMap
deriving DecidableEq

/-- An outbound HTTP POST performed by the delivery pipeline. -/
structure HttpPost where
  url : String
  payload : WebhookPayload
deriving DecidableEq

/-- Payload construction of `route_via_webhook` (lines 23 to 31): tenant id,
conversation id, timestamp, flattened `lead_details.get("name"/"phone"/"email")`
(`Option.join` mirrors `dict.get` collapsing absent and null), and the full
state blob. -/
def buildPayload (client_id conversation_id : String) (now : Nat)
    (lead : StateMap) : WebhookPayload :=
  { client_id := client_id, conversation_id := conversation_id, timestamp := now,
    name := (lookupState lead "name").join,
    phone := (lookupState lead "phone").join,
    email := (lookupState lead "email").join,
    lead_data := lead }

/-- Embeds `webhook_routing_service.route_via_webhook`.  If the tenant row is
absent or its `lead_webhook_url` is falsy, it logs and returns without a POST.
Otherwise it POSTs the payload; the response (`resp` oracle) is only logged:
the source writes no `WebhookAttempt`, `WebhookSuccess` or `WebhookFailure`
row on any path, so the store is returned unchanged.  The performed POSTs are
returned as data. -/
def route_via_webhook (db : DB) (client_id conversation_id : String)
    (lead_details : StateMap) (now : Nat) (_resp : Option HttpResp) :
    DB × List HttpPost :=
  match db.clients.find? (fun c => c.client_id == client_id) with
  | none => (db, [])
  | some cl =>
    if pyTruthy cl.lead_webhook_url then
      (db, [{ url := cl.lead_webhook_url.getD "",
              payload := buildPayload client_id conversation_id now lead_details }])
    else (db, [])

/-- Inputs of one turn of `handle_chat_message`, with the nondeterministic
environment as oracles: `fresh_id` is the `uuid.uuid4()` value used when the
request carries no conversation id, `gen` is the generator oracle, `now` the
wall clock, `resp` the webhook HTTP response oracle. -/
structure TurnInput where
  client_id : String
  conversation_id : Option String
  message : String
  fresh_id : String
  gen : Option AgentOutput
  now : Nat
  resp : Option HttpResp
deriving DecidableEq

/-- Observable outcome of one turn: the new store, the response returned to the
caller, whether the finalization and delivery pipeline ran, the POSTs it made,
the history window handed to the generator, and the store as it stood at the
moment the generator was invoked. -/
structure TurnResult where
  db : DB
  conversation_id : String
  response_text : String
  pipeline_invoked : Bool
  posts : List HttpPost
  history_arg : List Msg
  db_at_generator : DB
deriving DecidableEq

/-- Conversation id a turn resolves to: `request.conversation_id or uuid.uuid4()`. -/
def resolved_id (inp : TurnInput) : String :=
  inp.conversation_id.getD inp.fresh_id

/-- Embeds `chat.handle_chat_message` (`src/api/chat.py`), line by line:
load or create the conversation, read the history window (no `agent_type`
argument, exactly as at line 47), log the user message, invoke the generator
(the RAG context retrieval of lines 50 to 52 only feeds the oracle-modelled
generator and has no store effect), merge the non-null extracted fields, pick
`next_stage` (`agent_output.get("next_stage") or conversation.current_stage`,
where the empty string is falsy), save, run the finalization and delivery
pipeline exactly when the turn transitions into CLOSING, and log the reply. -/
def handle_chat_message (db : DB) (inp : TurnInput) : TurnResult :=
  let conversation_id := resolved_id inp
  let lc := load_or_create_conversation db conversation_id inp.client_id "patient"
  let db1 := lc.1
  let conv := lc.2
  let history := get_conversation_history db1 conversation_id 10 none
  let db2 := log_message db1 conversation_id "user" inp.message "patient"
  let agent_output := get_agent_response inp.gen conv.current_stage
  let response_text := agent_output.response_text
  let updated_details := agent_output.updated_details
  let current_state := mergeState conv.conversation_state updated_details
  let next_stage :=
    if agent_output.next_stage == "" then conv.current_stage else agent_output.next_stage
  let previous_stage := conv.current_stage
  let db3 := save_state db2 conversation_id next_stage current_state
  if next_stage == "CLOSING" && !(previous_stage == "CLOSING") then
    let fin := finalize_conversation db3 conversation_id inp.now
    let db4 := fin.2
    let persisted_state :=
      match get_conversation_by_id db4 conversation_id with
      | some c => c.conversation_state
      | none => ([] : StateMap)
    let rw := route_via_webhook db4 inp.client_id conversation_id persisted_state inp.now inp.resp
    let db5 := rw.1
    let db6 := log_message db5 conversation_id "bot" response_text "patient"
    { db := db6, conversation_id := conversation_id, response_text := response_text,
      pipeline_invoked := true, posts := rw.2,
      history_arg := history, db_at_generator := db2 }
  else
    let db4 := log_message db3 conversation_id "bot" response_text "patient"
    { db := db4, conversation_id := conversation_id, response_text := response_text,
      pipeline_invoked := false, posts := [],
      history_arg := history, db_at_generator := db2 }

/-- Stage of the turn's conversation immediately before the turn (GREETING for
a conversation created by the turn itself). -/
def pre_stage (db : DB) (inp : TurnInput) : String :=
  match findConversation db (resolved_id inp) with
  | some c => c.current_stage
  | none => "GREETING"

/-- Stage persisted for the turn's conversation after the turn. -/
def post_stage (db : DB) (inp : TurnInput) : String :=
  match findConversation (handle_chat_message db inp).db (resolved_id inp) with
  | some c => c.current_stage
  | none => ""

/-- Effective next stage of a turn:
`agent_output.get("next_stage") or conversation.current_stage`. -/
def effective_next (gen : Option AgentOutput) (prev : String) : String :=
  let o := get_agent_response gen prev
  if o.next_stage == "" then prev else o.next_stage

/-- Number of turns of a sequence on which the finalization and delivery
pipeline is invoked. -/
def invocation_count (db : DB) : List TurnInput → Nat
  | [] => 0
  | i :: rest =>
    (if (handle_chat_message db i).pipeline_invoked then 1 else 0) +
      invocation_count (handle_chat_message db i).db rest

/-- Store after running a sequence of turns. -/
def run_turns (db : DB) : List TurnInput → DB
  | [] => db
  | i :: rest => run_turns (handle_chat_message db i).db rest

/-- A generator outcome whose effective next stage from CLOSING is again
CLOSING: a raising call (fallback keeps the stage) or an output whose
`next_stage` is empty or CLOSING. -/
def keeps_closing : Option AgentOutput → Prop
  | none => True
  | some o => o.next_stage = "" ∨ o.next_stage = "CLOSING"

/-- A generator outcome that moves the conversation into CLOSING regardless of
the previous stage. -/
def enters_closing : Option AgentOutput → Prop
  | none => False
  | some o => o.next_stage = "CLOSING"

/-- Derived description of the turn's conversation row after
`handle_chat_message`: stage and state are overwritten with the effective next
stage and the merged state, and on a transition into CLOSING the finalization
flag and timestamp are set unless already finalized.  `handle_find_self` below
proves the embedding produces exactly this row. -/
def post_conv (c : Conversation) (gen : Option AgentOutput) (now : Nat) : Conversation :=
  let o := get_agent_response gen c.current_stage
  let ns := if o.next_stage == "" then c.current_stage else o.next_stage
  let base :=
    { c with current_stage := ns,
             conversation_state := mergeState c.conversation_state o.updated_details }
  if ns == "CLOSING" && !(c.current_stage == "CLOSING") then
    (if base.is_finalized then base
     else { base with is_finalized := true, finalized_at := some now })
  else base

/-! ## Concrete stores, rows and turns used by witnesses and counterexamples -/

/-- Empty store used by concrete witnesses. -/
def emptyDB : DB :=
  { conversations := [], chat_logs := [], clients := [],
    webhook_attempts := [], webhook_successes := [], webhook_failures := [],
    next_log_id := 0, next_time := 0 }

/-- Turn whose generator output moves the conversation into CLOSING. -/
def closingOutput : AgentOutput :=
  { response_text := "Booked!", updated_details := [("name", some "Ada")],
    user_confirmed := true, next_stage := "CLOSING" }

def closingTurn : TurnInput :=
  { client_id := "t", conversation_id := some "c", message := "yes, book it",
    fresh_id := "f", gen := some closingOutput, now := 7, resp := none }

/-- Follow-up turn whose generator output keeps the conversation in CLOSING. -/
def stayOutput : AgentOutput :=
  { response_text := "You are welcome.", updated_details := [],
    user_confirmed := false, next_stage := "CLOSING" }

def stayTurn : TurnInput :=
  { client_id := "t", conversation_id := some "c", message := "thanks",
    fresh_id := "g", gen := some stayOutput, now := 8, resp := none }

/-- Conversation row already finalized, used by concrete witnesses. -/
def finalizedConv : Conversation :=
  { conversation_id := "c", client_id := "t", current_stage := "CLOSING",
    conversation_state := [("name", some "Ada")], is_finalized := true,
    finalized_at := some 3, agent_type := "patient" }

def dbFinalized : DB := { emptyDB with conversations := [finalizedConv] }

/-- Conversation row in the booking stage, used by concrete witnesses. -/
def bookingConv : Conversation :=
  { conversation_id := "c", client_id := "t", current_stage := "BOOKING_APPOINTMENT",
    conversation_state := [("name", some "Ada"), ("phone", none)],
    is_finalized := false, finalized_at := none, agent_type := "patient" }

def dbBooking : DB := { emptyDB with conversations := [bookingConv] }

/-- Turn on which the generator raises. -/
def failTurn : TurnInput :=
  { client_id := "t", conversation_id := some "c", message := "hmm",
    fresh_id := "f", gen := none, now := 5, resp := none }

/-- Tenant row with a configured delivery URL, used by concrete witnesses. -/
def urlClient : Client :=
  { client_id := "t", clinic_name := "Bright Smiles",
    lead_webhook_url := some "https://crm.example/hook" }

/-- Tenant row without a configured delivery URL. -/
def noUrlClient : Client :=
  { client_id := "t", clinic_name := "Bright Smiles", lead_webhook_url := none }

/-- Store holding an unfinalized booking conversation and a tenant with a
configured URL. -/
def dbBookingUrl : DB :=
  { emptyDB with conversations := [bookingConv], clients := [urlClient] }

/-- Chat log row written under the clinical channel. -/
def clinicalLog : ChatLog :=
  { log_id := 0, conversation_id := "X", sender_type := "user",
    message := "clinical channel note", created_at := 0, agent_type := "clinical" }

/-- Patient-channel conversation sharing the identifier of `clinicalLog`. -/
def convX : Conversation :=
  { conversation_id := "X", client_id := "t", current_stage := "GREETING",
    conversation_state := initialState, is_finalized := false,
    finalized_at := none, agent_type := "patient" }

/-- Store with a clinical-channel message logged for conversation X. -/
def dbMixed : DB :=
  { emptyDB with
    conversations := [convX], chat_logs := [clinicalLog],
    next_log_id := 1, next_time := 1 }

/-- Benign generator output that keeps the stage. -/
def greetOutput : AgentOutput :=
  { response_text := "Hello!", updated_details := [], user_confirmed := false,
    next_stage := "" }

/-- Patient turn on conversation X. -/
def patientTurnX : TurnInput :=
  { client_id := "t", conversation_id := some "X", message := "hello",
    fresh_id := "f", gen := some greetOutput, now := 2, resp := none }

/-- Store with an unfinalized conversation and a tenant with no delivery URL. -/
def dbNoUrl : DB :=
  { emptyDB with conversations := [bookingConv], clients := [noUrlClient] }

/-- Closed enumeration of conversation stages named by the specification. -/
def stage_enum : List String :=
  ["GREETING", "BOOKING_APPOINTMENT", "ANSWERING_QUESTION", "CLOSING"]

/-- Generator output carrying a stage value outside the enumeration. -/
def rogueOutput : AgentOutput :=
  { response_text := "??", updated_details := [], user_confirmed := false,
    next_stage := "LIMBO" }

/-- Turn whose extraction supplies the out-of-enumeration stage. -/
def rogueTurn : TurnInput :=
  { client_id := "t", conversation_id := some "c", message := "hi",
    fresh_id := "f", gen := some rogueOutput, now := 3, resp := none }

/-! ## Association-list lemmas for the state dict -/

theorem lookupState_dictInsert_self (m : StateMap) (k : String) (v : Option String) :
    lookupState (dictInsert m k v) k = some v := by
  induction m with
  | nil => simp [dictInsert, lookupState]
  | cons p rest ih =>
    obtain ⟨k', v'⟩ := p
    by_cases h : k' = k
    · subst h
      simp [dictInsert, lookupState]
    · simp [dictInsert, lookupState, h, ih]

theorem lookupState_dictInsert_ne (m : StateMap) (k k' : String) (v : Option String)
    (h : k' ≠ k) : lookupState (dictInsert m k' v) k = lookupState m k := by
  induction m with
  | nil => simp [dictInsert, lookupState, h]
  | cons p rest ih =>
    obtain ⟨k₀, v₀⟩ := p
    by_cases h₀ : k₀ = k'
    · subst h₀
      simp [dictInsert, lookupState, h]
    · simp only [dictInsert, if_neg h₀]
      by_cases hk : k₀ = k
      · subst hk
        simp [lookupState]
      · simp [lookupState, hk, ih]

theorem mergeState_lookup_of_not_mem (upd : StateMap) :
    ∀ (st : StateMap) (k : String), (∀ v, (k, some v) ∉ upd) →
      lookupState (mergeState st upd) k = lookupState st k := by
  induction upd with
  | nil => intro st k _; rfl
  | cons p rest ih =>
    intro st k hk
    obtain ⟨k₀, v₀⟩ := p
    match v₀ with
    | none =>
      show lookupState (mergeState st rest) k = lookupState st k
      exact ih st k (fun v hv => hk v (List.mem_cons_of_mem _ hv))
    | some w =>
      show lookupState (mergeState (dictInsert st k₀ (some w)) rest) k = lookupState st k
      have hne : k₀ ≠ k := by
        intro h
        subst h
        exact hk w (List.mem_cons_self _ _)
      rw [ih (dictInsert st k₀ (some w)) k (fun v hv => hk v (List.mem_cons_of_mem _ hv))]
      exact lookupState_dictInsert_ne st k k₀ (some w) hne

theorem mergeState_lookup_of_mem (upd : StateMap) :
    ∀ (st : StateMap) (k : String) (v : String), (k, some v) ∈ upd →
      (upd.map Prod.fst).Nodup →
      lookupState (mergeState st upd) k = some (some v) := by
  induction upd with
  | nil => intro st k v hv _; exact absurd hv (List.not_mem_nil _)
  | cons p rest ih =>
    intro st k v hv hnd
    obtain ⟨k₀, v₀⟩ := p
    have hnd' : (rest.map Prod.fst).Nodup := (List.nodup_cons.mp hnd).2
    have hk₀ : k₀ ∉ rest.map Prod.fst := (List.nodup_cons.mp hnd).1
    rcases List.mem_cons.mp hv with heq | hmem
    · have hk : k₀ = k := (Prod.mk.injEq _ _ _ _).mp heq.symm |>.1
      have hvv : v₀ = some v := (Prod.mk.injEq _ _ _ _).mp heq.symm |>.2
      subst hk
      subst hvv
      show lookupState (mergeState (dictInsert st k₀ (some v)) rest) k₀ = some (some v)
      rw [mergeState_lookup_of_not_mem rest (dictInsert st k₀ (some v)) k₀
        (fun u hu => hk₀ (List.mem_map_of_mem Prod.fst hu))]
      exact lookupState_dictInsert_self st k₀ (some v)
    · match v₀ with
      | none => exact ih st k v hmem hnd'
      | some w => exact ih (dictInsert st k₀ (some w)) k v hmem hnd'

theorem mergeState_preserves_nonnull (upd : StateMap) :
    ∀ (st : StateMap) (k : String) (v : String),
      lookupState st k = some (some v) →
      ∃ w, lookupState (mergeState st upd) k = some (some w) := by
  induction upd with
  | nil => intro st k v hv; exact ⟨v, hv⟩
  | cons p rest ih =>
    intro st k v hv
    obtain ⟨k₀, v₀⟩ := p
    match v₀ with
    | none => exact ih st k v hv
    | some w =>
      by_cases hk : k₀ = k
      · subst hk
        exact ih (dictInsert st k₀ (some w)) k₀ w
          (lookupState_dictInsert_self st k₀ (some w))
      · exact ih (dictInsert st k₀ (some w)) k v
          (by rw [lookupState_dictInsert_ne st k k₀ (some w) hk]; exact hv)

/-! ## Store lemmas -/

theorem find_updateFirstBy_self (cid : String) (f : Conversation → Conversation)
    (hf : ∀ c, (f c).conversation_id = c.conversation_id) (l : List Conversation) :
    (updateFirstBy (fun c => c.conversation_id == cid) f l).find?
        (fun c => c.conversation_id == cid)
      = (l.find? (fun c => c.conversation_id == cid)).map f := by
  induction l with
  | nil => rfl
  | cons x xs ih =>
    by_cases hx : x.conversation_id = cid
    · simp [updateFirstBy, List.find?_cons, hf, hx]
    · simp [updateFirstBy, List.find?_cons, hf, hx, ih]

theorem find_updateFirstBy_ne (tid cid : String) (h : tid ≠ cid)
    (f : Conversation → Conversation)
    (hf : ∀ c, (f c).conversation_id = c.conversation_id) (l : List Conversation) :
    (updateFirstBy (fun c => c.conversation_id == tid) f l).find?
        (fun c => c.conversation_id == cid)
      = l.find? (fun c => c.conversation_id == cid) := by
  induction l with
  | nil => rfl
  | cons x xs ih =>
    by_cases hx : x.conversation_id = tid
    · have hxc : x.conversation_id ≠ cid := by rw [hx]; exact h
      simp [updateFirstBy, List.find?_cons, hf, hx, hxc, h]
    · by_cases hc : x.conversation_id = cid
      · simp [updateFirstBy, List.find?_cons, hx, hc, h, Ne.symm h]
      · simp [updateFirstBy, List.find?_cons, hx, hc, ih]

theorem findConversation_log_message (db : DB) (c s m a cid : String) :
    findConversation (log_message db c s m a) cid = findConversation db cid := rfl

theorem findConversation_save_self (db : DB) (cid stage : String) (st : StateMap) :
    findConversation (save_state db cid stage st) cid
      = (findConversation db cid).map
          (fun c => { c with current_stage := stage, conversation_state := st }) := by
  simp only [findConversation, save_state]
  exact find_updateFirstBy_self cid
    (fun c => { c with current_stage := stage, conversation_state := st })
    (fun _ => rfl) db.conversations

theorem findConversation_save_ne (db : DB) (tid cid stage : String) (st : StateMap)
    (h : tid ≠ cid) :
    findConversation (save_state db tid stage st) cid = findConversation db cid := by
  simp only [findConversation, save_state]
  exact find_updateFirstBy_ne tid cid h
    (fun c => { c with current_stage := stage, conversation_state := st })
    (fun _ => rfl) db.conversations

theorem findConversation_finalize_self (db : DB) (cid : String) (now : Nat) :
    findConversation (finalize_conversation db cid now).2 cid
      = match findConversation db cid with
        | none => none
        | some c =>
          some (if c.is_finalized then c
                else { c with is_finalized := true, finalized_at := some now }) := by
  cases hfc : findConversation db cid with
  | none => simp [finalize_conversation, hfc]
  | some c =>
    by_cases hf : c.is_finalized
    · simp [finalize_conversation, hfc, hf]
    · have := find_updateFirstBy_self cid
        (fun x => { x with is_finalized := true, finalized_at := some now })
        (fun _ => rfl) db.conversations
      simp only [finalize_conversation, hfc, if_neg hf]
      simp only [findConversation] at this ⊢
      rw [this]
      simp [findConversation] at hfc
      simp [hfc, hf]

theorem findConversation_finalize_ne (db : DB) (tid cid : String) (now : Nat)
    (h : tid ≠ cid) :
    findConversation (finalize_conversation db tid now).2 cid = findConversation db cid := by
  cases hfc : findConversation db tid with
  | none => simp [finalize_conversation, hfc]
  | some c =>
    by_cases hf : c.is_finalized
    · simp [finalize_conversation, hfc, hf]
    · simp only [finalize_conversation, hfc, if_neg hf]
      simp only [findConversation]
      exact find_updateFirstBy_ne tid cid h
        (fun x => { x with is_finalized := true, finalized_at := some now })
        (fun _ => rfl) db.conversations

theorem route_via_webhook_fst (db : DB) (t c : String) (l : StateMap) (n : Nat)
    (r : Option HttpResp) : (route_via_webhook db t c l n r).1 = db := by
  unfold route_via_webhook
  cases db.clients.find? (fun x => x.client_id == t) with
  | none => rfl
  | some cl =>
    by_cases h : pyTruthy cl.lead_webhook_url <;> simp [h]

theorem load_or_create_find_self (db : DB) (cid client ak : String) :
    findConversation (load_or_create_conversation db cid client ak).1 cid
      = some (load_or_create_conversation db cid client ak).2 := by
  cases hfc : findConversation db cid with
  | some c => simp [load_or_create_conversation, hfc]
  | none =>
    simp only [load_or_create_conversation, hfc]
    simp only [findConversation] at hfc ⊢
    rw [List.find?_append, hfc]
    simp [List.find?_cons]

theorem load_or_create_find_ne (db : DB) (tid cid client ak : String) (h : tid ≠ cid) :
    findConversation (load_or_create_conversation db tid client ak).1 cid
      = findConversation db cid := by
  cases hfc : findConversation db tid with
  | some c => simp [load_or_create_conversation, hfc]
  | none =>
    simp only [load_or_create_conversation, hfc]
    simp only [findConversation]
    rw [List.find?_append]
    simp [List.find?_cons, h]

theorem load_or_create_id (db : DB) (cid client ak : String) :
    ((load_or_create_conversation db cid client ak).2).conversation_id = cid := by
  cases hfc : findConversation db cid with
  | some c =>
    have := List.find?_some hfc
    simp only [beq_iff_eq] at this
    simp [load_or_create_conversation, hfc, this]
  | none => simp [load_or_create_conversation, hfc]

theorem load_or_create_stage (db : DB) (cid client ak : String) :
    ((load_or_create_conversation db cid client ak).2).current_stage
      = match findConversation db cid with
        | some c => c.current_stage
        | none => "GREETING" := by
  cases hfc : findConversation db cid with
  | some c => simp [load_or_create_conversation, hfc]
  | none => simp [load_or_create_conversation, hfc]

theorem load_or_create_of_found (db : DB) (cid client ak : String) (c : Conversation)
    (h : findConversation db cid = some c) :
    load_or_create_conversation db cid client ak = (db, c) := by
  simp [load_or_create_conversation, h]

theorem pre_stage_eq (db : DB) (inp : TurnInput) :
    pre_stage db inp
      = ((load_or_create_conversation db (resolved_id inp) inp.client_id "patient").2).current_stage := by
  rw [load_or_create_stage]
  rfl

theorem handle_find_self (db : DB) (inp : TurnInput) :
    findConversation (handle_chat_message db inp).db (resolved_id inp)
      = some (post_conv
          ((load_or_create_conversation db (resolved_id inp) inp.client_id "patient").2)
          inp.gen inp.now) := by
  have hfind1 := load_or_create_find_self db (resolved_id inp) inp.client_id "patient"
  unfold handle_chat_message post_conv
  dsimp only
  split
  · -- the extraction supplies no next stage: the stage is unchanged, so the
    -- trigger condition has the shape (s == CLOSING && !(s == CLOSING)) = false
    simp only [Bool.and_not_self]
    rw [if_neg Bool.false_ne_true, if_neg Bool.false_ne_true]
    rw [findConversation_log_message, findConversation_save_self, findConversation_log_message,
      hfind1]
    rfl
  · split
    · rw [findConversation_log_message, route_via_webhook_fst, findConversation_finalize_self,
        findConversation_save_self, findConversation_log_message, hfind1]
      rfl
    · rw [findConversation_log_message, findConversation_save_self, findConversation_log_message,
        hfind1]
      rfl

theorem handle_find_ne (db : DB) (inp : TurnInput) (cid : String)
    (h : cid ≠ resolved_id inp) :
    findConversation (handle_chat_message db inp).db cid = findConversation db cid := by
  have h1 := load_or_create_find_ne db (resolved_id inp) cid inp.client_id "patient" (Ne.symm h)
  unfold handle_chat_message
  dsimp only
  split
  · simp only [Bool.and_not_self]
    rw [if_neg Bool.false_ne_true]
    rw [findConversation_log_message, findConversation_save_ne _ _ _ _ _ (Ne.symm h),
      findConversation_log_message, h1]
  · split
    · rw [findConversation_log_message, route_via_webhook_fst,
        findConversation_finalize_ne _ _ _ _ (Ne.symm h),
        findConversation_save_ne _ _ _ _ _ (Ne.symm h), findConversation_log_message, h1]
    · rw [findConversation_log_message, findConversation_save_ne _ _ _ _ _ (Ne.symm h),
        findConversation_log_message, h1]

theorem handle_invoked (db : DB) (inp : TurnInput) :
    (handle_chat_message db inp).pipeline_invoked
      = (effective_next inp.gen (pre_stage db inp) == "CLOSING"
          && !(pre_stage db inp == "CLOSING")) := by
  rw [pre_stage_eq]
  unfold handle_chat_message effective_next
  dsimp only
  split
  · simp only [Bool.and_not_self]
    rw [if_neg Bool.false_ne_true]
  · split
    · rename_i h
      exact h.symm
    · rename_i h
      simp only [Bool.not_eq_true] at h
      exact h.symm

theorem handle_response_text (db : DB) (inp : TurnInput) :
    (handle_chat_message db inp).response_text
      = (get_agent_response inp.gen (pre_stage db inp)).response_text := by
  rw [pre_stage_eq]
  unfold handle_chat_message
  dsimp only
  split
  · simp only [Bool.and_not_self]
    rw [if_neg Bool.false_ne_true]
  · split <;> rfl

theorem handle_history_arg (db : DB) (inp : TurnInput) :
    (handle_chat_message db inp).history_arg
      = get_conversation_history
          (load_or_create_conversation db (resolved_id inp) inp.client_id "patient").1
          (resolved_id inp) 10 none := by
  unfold handle_chat_message
  dsimp only
  split
  · simp only [Bool.and_not_self]
    rw [if_neg Bool.false_ne_true]
  · split <;> rfl

theorem handle_db_at_generator (db : DB) (inp : TurnInput) :
    (handle_chat_message db inp).db_at_generator
      = log_message
          (load_or_create_conversation db (resolved_id inp) inp.client_id "patient").1
          (resolved_id inp) "user" inp.message "patient" := by
  unfold handle_chat_message
  dsimp only
  split
  · simp only [Bool.and_not_self]
    rw [if_neg Bool.false_ne_true]
  · split <;> rfl

theorem post_conv_stage (c : Conversation) (gen : Option AgentOutput) (now : Nat) :
    (post_conv c gen now).current_stage = effective_next gen c.current_stage := by
  unfold post_conv effective_next
  dsimp only
  split_ifs <;> rfl

theorem post_conv_state (c : Conversation) (gen : Option AgentOutput) (now : Nat) :
    (post_conv c gen now).conversation_state
      = mergeState c.conversation_state
          (get_agent_response gen c.current_stage).updated_details := by
  unfold post_conv
  dsimp only
  split_ifs <;> rfl

theorem post_stage_eq (db : DB) (inp : TurnInput) :
    post_stage db inp = effective_next inp.gen (pre_stage db inp) := by
  unfold post_stage
  rw [handle_find_self, pre_stage_eq]
  dsimp only
  rw [post_conv_stage]

theorem handle_invoked_iff (db : DB) (inp : TurnInput) :
    (handle_chat_message db inp).pipeline_invoked = true
      ↔ (post_stage db inp = "CLOSING" ∧ pre_stage db inp ≠ "CLOSING") := by
  rw [handle_invoked, ← post_stage_eq]
  simp [Bool.and_eq_true]

theorem effective_next_closing (gen : Option AgentOutput)
    (hk : keeps_closing gen) : effective_next gen "CLOSING" = "CLOSING" := by
  cases gen with
  | none => rfl
  | some o =>
    unfold keeps_closing at hk
    unfold effective_next get_agent_response
    dsimp only
    rcases hk with h | h <;> simp [h]

theorem turn_keeps_closing (db : DB) (inp : TurnInput) (c : Conversation)
    (hc : findConversation db (resolved_id inp) = some c)
    (hstage : c.current_stage = "CLOSING")
    (hk : keeps_closing inp.gen) :
    (handle_chat_message db inp).pipeline_invoked = false
    ∧ ∃ c2, findConversation (handle_chat_message db inp).db (resolved_id inp) = some c2
        ∧ c2.current_stage = "CLOSING" := by
  have hpre : pre_stage db inp = "CLOSING" := by
    unfold pre_stage
    rw [hc]
    exact hstage
  refine ⟨?_, ⟨_, handle_find_self db inp, ?_⟩⟩
  · rw [handle_invoked, hpre]
    simp
  · rw [post_conv_stage, ← pre_stage_eq, hpre]
    exact effective_next_closing inp.gen hk

theorem invocation_count_closing (inps : List TurnInput) :
    ∀ (db : DB) (cid : String) (c : Conversation),
      findConversation db cid = some c → c.current_stage = "CLOSING" →
      (∀ i ∈ inps, resolved_id i = cid ∧ keeps_closing i.gen) →
      invocation_count db inps = 0 := by
  induction inps with
  | nil => intro db cid c _ _ _; rfl
  | cons i rest ih =>
    intro db cid c hc hstage hall
    obtain ⟨hid, hk⟩ := hall i (List.mem_cons_self i rest)
    obtain ⟨hinv, c2, hc2, hs2⟩ :=
      turn_keeps_closing db i c (by rw [hid]; exact hc) hstage hk
    unfold invocation_count
    rw [hinv]
    simp only [Bool.false_eq_true, if_false, Nat.zero_add]
    exact ih (handle_chat_message db i).db cid c2 (by rw [hid] at hc2; exact hc2) hs2
      (fun j hj => hall j (List.mem_cons_of_mem _ hj))

theorem enters_closing_effective (gen : Option AgentOutput) (prev : String)
    (h : enters_closing gen) : effective_next gen prev = "CLOSING" := by
  cases gen with
  | none => exact absurd h (by unfold enters_closing; simp)
  | some o =>
    unfold enters_closing at h
    unfold effective_next get_agent_response
    dsimp only
    simp [h]

/-- C1: the finalization and delivery pipeline runs on a turn exactly when the
persisted next stage is CLOSING and the stage immediately prior to the turn
was not CLOSING; consequently, for a conversation whose first turn enters
CLOSING and whose further turns all keep it in CLOSING, the pipeline is
invoked exactly once across the whole sequence. -/
theorem c1_exactly_once_finalization
    (db : DB) (cid : String) (first : TurnInput) (rest : List TurnInput)
    (hid : resolved_id first = cid)
    (henter : enters_closing first.gen)
    (hpre : pre_stage db first ≠ "CLOSING")
    (hrest : ∀ i ∈ rest, resolved_id i = cid ∧ keeps_closing i.gen) :
    invocation_count db (first :: rest) = 1
    ∧ ∀ (d : DB) (i : TurnInput),
        (handle_chat_message d i).pipeline_invoked = true
          ↔ (post_stage d i = "CLOSING" ∧ pre_stage d i ≠ "CLOSING") := by
  have hen : effective_next first.gen (pre_stage db first) = "CLOSING" :=
    enters_closing_effective first.gen _ henter
  have hinv1 : (handle_chat_message db first).pipeline_invoked = true := by
    rw [handle_invoked, hen]
    simp [hpre]
  have hc2 : ∃ c2, findConversation (handle_chat_message db first).db cid = some c2
      ∧ c2.current_stage = "CLOSING" := by
    refine ⟨_, by rw [← hid]; exact handle_find_self db first, ?_⟩
    rw [post_conv_stage, ← pre_stage_eq]
    exact hen
  obtain ⟨c2, hfc2, hs2⟩ := hc2
  constructor
  · unfold invocation_count
    rw [hinv1]
    simp only [if_true]
    rw [invocation_count_closing rest (handle_chat_message db first).db cid c2 hfc2 hs2 hrest]
  · exact fun d i => handle_invoked_iff d i

/-- Witness for C1 at a concrete two-turn sequence. -/
theorem c1_exactly_once_finalization_witness :
    invocation_count emptyDB [closingTurn, stayTurn] = 1 :=
  (c1_exactly_once_finalization emptyDB "c" closingTurn [stayTurn] (by decide) rfl
    (by decide)
    (fun i hi => by
      rw [List.mem_singleton] at hi
      subst hi
      exact ⟨by decide, Or.inr rfl⟩)).1

theorem post_conv_none (c : Conversation) (now : Nat) : post_conv c none now = c := by
  unfold post_conv get_agent_response
  dsimp only
  simp only [ite_self, Bool.and_not_self]
  rw [if_neg Bool.false_ne_true]
  cases c
  rfl

/-- C2: finalize on a missing or already-finalized conversation returns false
and leaves the whole store (hence `is_finalized`, `finalized_at`, stage and
state of every conversation) unchanged; in particular a second finalize after
any finalize is always such a no-op. -/
theorem c2_finalize_idempotent (db : DB) (cid : String) (now : Nat)
    (h : findConversation db cid = none
        ∨ ∃ c, findConversation db cid = some c ∧ c.is_finalized = true) :
    finalize_conversation db cid now = (false, db)
    ∧ ∀ (d : DB) (c : String) (n n' : Nat),
        finalize_conversation (finalize_conversation d c n).2 c n'
          = (false, (finalize_conversation d c n).2) := by
  constructor
  · rcases h with h | ⟨c, hc, hf⟩
    · simp [finalize_conversation, h]
    · simp [finalize_conversation, hc, hf]
  · intro d c n n'
    cases hfc : findConversation d c with
    | none => simp [finalize_conversation, hfc]
    | some c0 =>
      by_cases hf : c0.is_finalized
      · simp [finalize_conversation, hfc, hf]
      · have h2 : findConversation (finalize_conversation d c n).2 c
            = some { c0 with is_finalized := true, finalized_at := some n } := by
          rw [findConversation_finalize_self, hfc]
          simp [hf]
        set X := (finalize_conversation d c n).2 with hX
        show finalize_conversation X c n' = (false, X)
        simp [finalize_conversation, h2]

/-- Witness for C2 at a concrete already-finalized conversation. -/
theorem c2_finalize_idempotent_witness :
    finalize_conversation dbFinalized "c" 9 = (false, dbFinalized) :=
  (c2_finalize_idempotent dbFinalized "c" 9
    (Or.inr ⟨finalizedConv, by decide, rfl⟩)).1

/-- C3: the merge writes an extracted value only when it is non-null and keeps
the previous value otherwise, and over any sequence of turns a state field
once non-null is never reset to null. -/
theorem c3_monotonic_merge (st upd : StateMap) (h : (upd.map Prod.fst).Nodup) :
    (∀ k v, (k, some v) ∈ upd → lookupState (mergeState st upd) k = some (some v))
    ∧ (∀ k, (∀ v, (k, some v) ∉ upd) →
        lookupState (mergeState st upd) k = lookupState st k)
    ∧ (∀ k v, lookupState st k = some (some v) →
        ∃ w, lookupState (mergeState st upd) k = some (some w))
    ∧ ∀ (d : DB) (inps : List TurnInput) (cid k v : String) (c : Conversation),
        findConversation d cid = some c →
        lookupState c.conversation_state k = some (some v) →
        ∃ c2 w, findConversation (run_turns d inps) cid = some c2
          ∧ lookupState c2.conversation_state k = some (some w) := by
  refine ⟨fun k v hv => mergeState_lookup_of_mem upd st k v hv h,
    fun k hk => mergeState_lookup_of_not_mem upd st k hk,
    fun k v hv => mergeState_preserves_nonnull upd st k v hv,
    ?_⟩
  intro d inps
  induction inps generalizing d with
  | nil => intro cid k v c hc hv; exact ⟨c, v, hc, hv⟩
  | cons i rest ih =>
    intro cid k v c hc hv
    simp only [run_turns]
    by_cases hcid : cid = resolved_id i
    · have hc' : findConversation d (resolved_id i) = some c := by rw [← hcid]; exact hc
      have hlc : (load_or_create_conversation d (resolved_id i) i.client_id "patient").2 = c := by
        simp [load_or_create_conversation, hc']
      have hfind := handle_find_self d i
      rw [hlc] at hfind
      obtain ⟨w, hw⟩ := mergeState_preserves_nonnull
        (get_agent_response i.gen c.current_stage).updated_details
        c.conversation_state k v hv
      exact ih (handle_chat_message d i).db cid k w (post_conv c i.gen i.now)
        (by rw [hcid]; exact hfind)
        (by rw [post_conv_state]; exact hw)
    · exact ih (handle_chat_message d i).db cid k v c
        (by rw [handle_find_ne d i cid hcid]; exact hc) hv

/-- Witness for C3 at a concrete state and update. -/
theorem c3_monotonic_merge_witness :
    lookupState (mergeState [("name", some "Ada"), ("phone", none)]
      [("phone", some "5551234"), ("email", none)]) "name" = some (some "Ada") :=
  ((c3_monotonic_merge [("name", some "Ada"), ("phone", none)]
      [("phone", some "5551234"), ("email", none)] (by decide)).2.1) "name"
    (by intro v hv; simp at hv)

/-- C4: when the generator raises, the turn completes with the fixed fallback
reply, the fallback extraction has empty updated fields and keeps the stage,
and the persisted conversation row is unchanged. -/
theorem c4_generator_fallback (db : DB) (inp : TurnInput) (c : Conversation)
    (hgen : inp.gen = none)
    (hc : findConversation db (resolved_id inp) = some c) :
    (handle_chat_message db inp).response_text = fallbackText
    ∧ findConversation (handle_chat_message db inp).db (resolved_id inp) = some c
    ∧ get_agent_response inp.gen c.current_stage
        = { response_text := fallbackText, updated_details := [],
            user_confirmed := false, next_stage := c.current_stage } := by
  have hpre : pre_stage db inp = c.current_stage := by
    unfold pre_stage
    rw [hc]
  have hlc : (load_or_create_conversation db (resolved_id inp) inp.client_id "patient").2 = c := by
    simp [load_or_create_conversation, hc]
  refine ⟨?_, ?_, by rw [hgen]; rfl⟩
  · rw [handle_response_text, hpre, hgen]
    rfl
  · rw [handle_find_self, hlc, hgen, post_conv_none]

/-- Witness for C4 at a concrete conversation and failing turn. -/
theorem c4_generator_fallback_witness :
    (handle_chat_message dbBooking failTurn).response_text = fallbackText
    ∧ findConversation (handle_chat_message dbBooking failTurn).db
        (resolved_id failTurn) = some bookingConv :=
  ⟨(c4_generator_fallback dbBooking failTurn bookingConv rfl (by decide)).1,
   (c4_generator_fallback dbBooking failTurn bookingConv rfl (by decide)).2.1⟩

theorem save_state_clients (db : DB) (cid stage : String) (st : StateMap) :
    (save_state db cid stage st).clients = db.clients := rfl

theorem log_message_clients (db : DB) (c s m a : String) :
    (log_message db c s m a).clients = db.clients := rfl

theorem finalize_clients (db : DB) (cid : String) (n : Nat) :
    ((finalize_conversation db cid n).2).clients = db.clients := by
  unfold finalize_conversation
  cases findConversation db cid with
  | none => rfl
  | some c => by_cases h : c.is_finalized <;> simp [h]

theorem load_or_create_clients (db : DB) (cid cl a : String) :
    ((load_or_create_conversation db cid cl a).1).clients = db.clients := by
  unfold load_or_create_conversation
  cases findConversation db cid with
  | none => rfl
  | some c => rfl

theorem route_snd_congr (db db' : DB) (h : db.clients = db'.clients)
    (t c : String) (l : StateMap) (n : Nat) (r : Option HttpResp) :
    (route_via_webhook db t c l n r).2 = (route_via_webhook db' t c l n r).2 := by
  unfold route_via_webhook
  rw [h]
  cases db'.clients.find? (fun x => x.client_id == t) with
  | none => rfl
  | some cl => by_cases hu : pyTruthy cl.lead_webhook_url <;> simp [hu]

theorem handle_posts (db : DB) (inp : TurnInput) :
    (handle_chat_message db inp).posts
      = if ((effective_next inp.gen (pre_stage db inp) == "CLOSING")
            && !(pre_stage db inp == "CLOSING")) = true then
          (route_via_webhook db inp.client_id (resolved_id inp)
            (post_conv
              ((load_or_create_conversation db (resolved_id inp) inp.client_id "patient").2)
              inp.gen inp.now).conversation_state inp.now inp.resp).2
        else [] := by
  rw [pre_stage_eq]
  have hfind1 := load_or_create_find_self db (resolved_id inp) inp.client_id "patient"
  unfold handle_chat_message effective_next
  dsimp only
  split
  · simp only [Bool.and_not_self]
    rw [if_neg Bool.false_ne_true, if_neg Bool.false_ne_true]
  · split
    · dsimp only
      simp only [get_conversation_by_id]
      rw [findConversation_finalize_self, findConversation_save_self,
        findConversation_log_message, hfind1]
      dsimp only [Option.map]
      rw [post_conv_state]
      by_cases hfin :
        ((load_or_create_conversation db (resolved_id inp) inp.client_id "patient").2).is_finalized = true
      · rw [if_pos hfin]
        refine route_snd_congr _ _ ?_ _ _ _ _ _
        rw [finalize_clients, save_state_clients, log_message_clients, load_or_create_clients]
      · rw [if_neg hfin]
        refine route_snd_congr _ _ ?_ _ _ _ _ _
        rw [finalize_clients, save_state_clients, log_message_clients, load_or_create_clients]
    · rfl

/-- C9: on a finalization-triggering turn with a configured tenant URL, the
single outbound POST carries exactly the payload built by `buildPayload`
(tenant id, conversation id, timestamp, flattened name/phone/email lookups and
the full state blob) over the conversation state persisted for the turn's
conversation, which equals the merged state re-read from the store. -/
theorem c9_webhook_payload (db : DB) (inp : TurnInput) (cl : Client)
    (henter : enters_closing inp.gen)
    (hpre : pre_stage db inp ≠ "CLOSING")
    (hcl : db.clients.find? (fun x => x.client_id == inp.client_id) = some cl)
    (hurl : pyTruthy cl.lead_webhook_url = true) :
    (handle_chat_message db inp).posts
      = [{ url := cl.lead_webhook_url.getD "",
           payload := buildPayload inp.client_id (resolved_id inp) inp.now
             (post_conv
               ((load_or_create_conversation db (resolved_id inp) inp.client_id "patient").2)
               inp.gen inp.now).conversation_state }]
    ∧ findConversation (handle_chat_message db inp).db (resolved_id inp)
        = some (post_conv
            ((load_or_create_conversation db (resolved_id inp) inp.client_id "patient").2)
            inp.gen inp.now)
    ∧ (post_conv
        ((load_or_create_conversation db (resolved_id inp) inp.client_id "patient").2)
        inp.gen inp.now).conversation_state
      = mergeState
          ((load_or_create_conversation db (resolved_id inp) inp.client_id "patient").2).conversation_state
          ((get_agent_response inp.gen (pre_stage db inp)).updated_details) := by
  have hen : effective_next inp.gen (pre_stage db inp) = "CLOSING" :=
    enters_closing_effective inp.gen _ henter
  have htrig : ((effective_next inp.gen (pre_stage db inp) == "CLOSING")
      && !(pre_stage db inp == "CLOSING")) = true := by
    rw [hen]
    simp [hpre]
  refine ⟨?_, handle_find_self db inp, by rw [post_conv_state, pre_stage_eq]⟩
  rw [handle_posts, if_pos htrig]
  unfold route_via_webhook
  rw [hcl]
  dsimp only
  rw [hurl]
  rfl

/-- Witness for C9 at a concrete finalizing turn. -/
theorem c9_webhook_payload_witness :
    (handle_chat_message dbBookingUrl closingTurn).posts
      = [{ url := "https://crm.example/hook",
           payload := buildPayload "t" "c" 7
             (post_conv bookingConv (some closingOutput) 7).conversation_state }] :=
  (c9_webhook_payload dbBookingUrl closingTurn urlClient rfl (by decide)
    (by decide) rfl).1

/-- C5 is violated by the code: `handle_chat_message` reads the history window
without the `agent_type` filter (chat.py line 47 passes no `agent_type`), so a
message logged under the clinical channel for the same conversation identifier
is handed to the patient generator. -/
theorem c5_channel_isolation_violated :
    clinicalLog ∈ dbMixed.chat_logs
    ∧ clinicalLog.agent_type = "clinical"
    ∧ convX.agent_type = "patient"
    ∧ (handle_chat_message dbMixed patientTurnX).history_arg
        = [Msg.human "clinical channel note"] := by
  refine ⟨by decide, rfl, rfl, ?_⟩
  rfl

/-- C6 is violated by the code: `route_via_webhook` returns the store
unchanged on every path, so no `WebhookAttempt`, `WebhookSuccess` or
`WebhookFailure` audit row is ever appended; in particular a delivery attempt
answered with HTTP 200 performs a POST yet records nothing. -/
theorem c6_no_audit_records_appended :
    (∀ (db : DB) (t c : String) (lead : StateMap) (now : Nat) (resp : Option HttpResp),
        (route_via_webhook db t c lead now resp).1 = db)
    ∧ (route_via_webhook { emptyDB with clients := [urlClient] } "t" "c"
        [("name", some "Ada")] 4 (some { status_code := 200, body := "ok" })).2 ≠ []
    ∧ (route_via_webhook { emptyDB with clients := [urlClient] } "t" "c"
        [("name", some "Ada")] 4
        (some { status_code := 200, body := "ok" })).1.webhook_successes = []
    ∧ (route_via_webhook { emptyDB with clients := [urlClient] } "t" "c"
        [("name", some "Ada")] 4
        (some { status_code := 200, body := "ok" })).1.webhook_attempts = [] := by
  refine ⟨fun db t c lead now resp => route_via_webhook_fst db t c lead now resp,
    by decide, rfl, rfl⟩

/-- C7: a tenant with no record or no configured delivery URL yields zero
outbound POSTs and an unchanged store (hence zero attempt, success or failure
audit rows), the call returns normally, and the preceding finalize on an
unfinalized conversation still succeeds. -/
theorem c7_delivery_skip (db : DB) (tid cid : String) (lead : StateMap) (now : Nat)
    (resp : Option HttpResp) (c : Conversation)
    (hc : findConversation db cid = some c) (hnf : c.is_finalized = false)
    (hcl : db.clients.find? (fun x => x.client_id == tid) = none
        ∨ ∃ cl, db.clients.find? (fun x => x.client_id == tid) = some cl
            ∧ pyTruthy cl.lead_webhook_url = false) :
    route_via_webhook db tid cid lead now resp = (db, [])
    ∧ (finalize_conversation db cid now).1 = true
    ∧ ∃ c2, findConversation (finalize_conversation db cid now).2 cid = some c2
        ∧ c2.is_finalized = true := by
  refine ⟨?_, ?_, ?_⟩
  · rcases hcl with h | ⟨cl, hfcl, hurl⟩
    · simp [route_via_webhook, h]
    · simp [route_via_webhook, hfcl, hurl]
  · simp [finalize_conversation, hc, hnf]
  · have h2 : findConversation (finalize_conversation db cid now).2 cid
        = some { c with is_finalized := true, finalized_at := some now } := by
      rw [findConversation_finalize_self, hc]
      simp [hnf]
    exact ⟨_, h2, rfl⟩

/-- Witness for C7 at a concrete tenant without a URL. -/
theorem c7_delivery_skip_witness :
    route_via_webhook dbNoUrl "t" "c" [] 6 none = (dbNoUrl, [])
    ∧ (finalize_conversation dbNoUrl "c" 6).1 = true :=
  ⟨(c7_delivery_skip dbNoUrl "t" "c" [] 6 none bookingConv (by decide) rfl
      (Or.inr ⟨noUrlClient, by decide, rfl⟩)).1,
   (c7_delivery_skip dbNoUrl "t" "c" [] 6 none bookingConv (by decide) rfl
      (Or.inr ⟨noUrlClient, by decide, rfl⟩)).2.1⟩

/-- Counterexample to C8 as stated: the code validates nothing, so a turn
whose extraction supplies the stage string LIMBO persists LIMBO, which is
outside the closed enumeration. -/
theorem c8_stage_enum_counterexample :
    post_stage dbBooking rogueTurn = "LIMBO" ∧ "LIMBO" ∉ stage_enum := by
  refine ⟨?_, by decide⟩
  rfl

/-- C8 as amended: a newly created conversation starts at GREETING and a turn
whose extraction supplies no next stage (or whose generator raises) keeps the
stage; membership of the persisted stage in the closed enumeration holds
provided the pre-turn stage lies in it and any extraction-supplied stage is
empty or lies in it, since the code persists extraction-supplied stage strings
without validation. -/
theorem c8_stage_enum_amended (db : DB) (inp : TurnInput)
    (hpre : pre_stage db inp ∈ stage_enum)
    (hgen : ∀ o, inp.gen = some o → o.next_stage = "" ∨ o.next_stage ∈ stage_enum) :
    post_stage db inp ∈ stage_enum
    ∧ (findConversation db (resolved_id inp) = none → pre_stage db inp = "GREETING")
    ∧ (∀ o, inp.gen = some o → o.next_stage = "" →
        post_stage db inp = pre_stage db inp)
    ∧ (inp.gen = none → post_stage db inp = pre_stage db inp) := by
  refine ⟨?_, ?_, ?_, ?_⟩
  · rw [post_stage_eq]
    cases hg : inp.gen with
    | none =>
      simp only [effective_next, get_agent_response, ite_self]
      exact hpre
    | some o =>
      rcases hgen o hg with h | h
      · simp only [effective_next, get_agent_response, h]
        simp
        exact hpre
      · by_cases he : o.next_stage = ""
        · simp only [effective_next, get_agent_response, he]
          simp
          exact hpre
        · simp only [effective_next, get_agent_response]
          simp [he]
          exact h
  · intro h
    unfold pre_stage
    rw [h]
  · intro o hg he
    rw [post_stage_eq]
    simp only [effective_next, get_agent_response, hg, he]
    simp
  · intro hg
    rw [post_stage_eq]
    simp only [effective_next, get_agent_response, hg, ite_self]

/-- Witness for the amended C8 at a concrete turn. -/
theorem c8_stage_enum_amended_witness :
    post_stage emptyDB stayTurn ∈ stage_enum :=
  (c8_stage_enum_amended emptyDB stayTurn (by decide)
    (fun o ho => by
      injection ho with h
      subst h
      exact Or.inr (by decide))).1

theorem mem_insertByCreatedDesc (l x : ChatLog) (xs : List ChatLog) :
    x ∈ insertByCreatedDesc l xs ↔ x = l ∨ x ∈ xs := by
  induction xs with
  | nil => simp [insertByCreatedDesc]
  | cons y ys ih =>
    by_cases h : l.created_at ≥ y.created_at
    · simp only [insertByCreatedDesc, if_pos h, List.mem_cons]
    · simp only [insertByCreatedDesc, if_neg h, List.mem_cons, ih]
      tauto

theorem mem_sortByCreatedDesc (x : ChatLog) (xs : List ChatLog) :
    x ∈ sortByCreatedDesc xs ↔ x ∈ xs := by
  induction xs with
  | nil => simp [sortByCreatedDesc]
  | cons y ys ih =>
    simp only [sortByCreatedDesc, mem_insertByCreatedDesc, ih, List.mem_cons]

theorem mem_history_window_logs (db : DB) (cid : String) (limit : Nat)
    (ak : Option String) (l : ChatLog) :
    l ∈ history_window_logs db cid limit ak → l ∈ db.chat_logs := by
  unfold history_window_logs
  dsimp only
  intro h
  rw [List.mem_reverse] at h
  have h2 := List.mem_of_mem_take h
  rw [mem_sortByCreatedDesc] at h2
  split at h2
  · exact (List.mem_filter.mp ((List.mem_filter.mp h2).1)).1
  · exact (List.mem_filter.mp h2).1

theorem load_or_create_chat_logs (db : DB) (cid cl a : String) :
    ((load_or_create_conversation db cid cl a).1).chat_logs = db.chat_logs := by
  unfold load_or_create_conversation
  cases findConversation db cid <;> rfl

theorem load_or_create_next_log_id (db : DB) (cid cl a : String) :
    ((load_or_create_conversation db cid cl a).1).next_log_id = db.next_log_id := by
  unfold load_or_create_conversation
  cases findConversation db cid <;> rfl

theorem load_or_create_next_time (db : DB) (cid cl a : String) :
    ((load_or_create_conversation db cid cl a).1).next_time = db.next_time := by
  unfold load_or_create_conversation
  cases findConversation db cid <;> rfl

/-- C10: the history window handed to the generator is computed from the store
as it stood before the current user message was appended, so it cannot contain
the freshly appended log row, although that row is durably in the store by the
time the generator is invoked. -/
theorem c10_history_before_log (db : DB) (inp : TurnInput)
    (hwf : ∀ l ∈ db.chat_logs, l.log_id < db.next_log_id) :
    (handle_chat_message db inp).history_arg
      = get_conversation_history
          (load_or_create_conversation db (resolved_id inp) inp.client_id "patient").1
          (resolved_id inp) 10 none
    ∧ (handle_chat_message db inp).db_at_generator.chat_logs
        = db.chat_logs ++
          [{ log_id := db.next_log_id, conversation_id := resolved_id inp,
             sender_type := "user", message := inp.message,
             created_at := db.next_time, agent_type := "patient" }]
    ∧ ({ log_id := db.next_log_id, conversation_id := resolved_id inp,
         sender_type := "user", message := inp.message,
         created_at := db.next_time, agent_type := "patient" } : ChatLog)
        ∉ history_window_logs
            (load_or_create_conversation db (resolved_id inp) inp.client_id "patient").1
            (resolved_id inp) 10 none := by
  refine ⟨handle_history_arg db inp, ?_, ?_⟩
  · rw [handle_db_at_generator]
    unfold log_message
    dsimp only
    rw [load_or_create_chat_logs, load_or_create_next_log_id, load_or_create_next_time]
  · intro hmem
    have h1 := mem_history_window_logs _ _ _ _ _ hmem
    rw [load_or_create_chat_logs] at h1
    exact Nat.lt_irrefl _ (hwf _ h1)

/-- Witness for C10 at a concrete store and turn. -/
theorem c10_history_before_log_witness :
    (handle_chat_message dbMixed patientTurnX).db_at_generator.chat_logs
      = dbMixed.chat_logs ++
        [{ log_id := 1, conversation_id := "X", sender_type := "user",
           message := "hello", created_at := 1, agent_type := "patient" }] :=
  (c10_history_before_log dbMixed patientTurnX (by decide)).2.1
